import Mathlib

/-!
Verification development for the image-puzzle minigame server
(`app/src/main.py`, `app/src/sessions.py`, `app/src/config.py`,
`app/src/database.py`).

The Python program is shallowly embedded: the mutable per-session
dictionaries become a `GameSession` structure, the global session maps
become association lists inside a `SessionRegistry`, images become
functions from pixel coordinates to intensities, and every endpoint
function is translated into a pure Lean function returning its result
together with the updated state.  `random.shuffle` and `uuid.uuid4` are
parametrised by their random choices.
-/

namespace Puzzle

/-! ## List swap (Python `l[a], l[b] = l[b], l[a]`)

Python evaluates the right-hand tuple against the old list and then
assigns both cells, so the swap reads both old values. -/

/-- Python simultaneous assignment `l[a], l[b] = l[b], l[a]` on a list of
naturals: both reads happen against the old list. -/
def swapList (l : List ℕ) (a b : ℕ) : List ℕ :=
  (l.set a (l.getD b 0)).set b (l.getD a 0)

theorem length_swapList (l : List ℕ) (a b : ℕ) :
    (swapList l a b).length = l.length := by
  simp [swapList]

theorem getElem?_swapList (l : List ℕ) (a b i : ℕ)
    (ha : a < l.length) (hb : b < l.length) :
    (swapList l a b)[i]? = if i = b then l[a]? else if i = a then l[b]? else l[i]? := by
  unfold swapList
  by_cases hib : i = b
  · subst hib
    rw [List.getElem?_set_self (by simpa using hb)]
    rw [if_pos rfl]
    rw [List.getElem?_eq_getElem ha, List.getD_eq_getElem?_getD,
      List.getElem?_eq_getElem ha]
    rfl
  · rw [List.getElem?_set_ne (fun h => hib h.symm)]
    rw [if_neg hib]
    by_cases hia : i = a
    · subst hia
      rw [List.getElem?_set_self ha, if_pos rfl]
      rw [List.getD_eq_getElem?_getD, List.getElem?_eq_getElem hb]
      rfl
    · rw [List.getElem?_set_ne (fun h => hia h.symm), if_neg hia]

theorem swapList_swapList (l : List ℕ) (a b : ℕ)
    (ha : a < l.length) (hb : b < l.length) :
    swapList (swapList l a b) a b = l := by
  have ha2 : a < (swapList l a b).length := by rw [length_swapList]; exact ha
  have hb2 : b < (swapList l a b).length := by rw [length_swapList]; exact hb
  apply List.ext_getElem?
  intro i
  rw [getElem?_swapList _ a b i ha2 hb2]
  rw [getElem?_swapList l a b a ha hb, getElem?_swapList l a b b ha hb,
    getElem?_swapList l a b i ha hb]
  by_cases hib : i = b <;> by_cases hia : i = a <;> by_cases hab : a = b <;>
    simp_all

theorem swapList_self (l : List ℕ) (a : ℕ) (ha : a < l.length) :
    swapList l a a = l := by
  apply List.ext_getElem?
  intro i
  rw [getElem?_swapList l a a i ha ha]
  by_cases hia : i = a <;> simp_all

theorem count_set (c x : ℕ) :
    ∀ (l : List ℕ) (n : ℕ), n < l.length →
      (l.set n x).count c + (if l.getD n 0 == c then 1 else 0) =
        l.count c + (if x == c then 1 else 0) := by
  intro l
  induction l with
  | nil => intro n h; simp at h
  | cons hd tl ih =>
    intro n h
    cases n with
    | zero =>
      simp only [List.set_cons_zero, List.getD_cons_zero, List.count_cons]
      omega
    | succ n =>
      have h' : n < tl.length := by simpa using h
      simp only [List.set_cons_succ, List.getD_cons_succ, List.count_cons]
      have := ih n h'
      omega

theorem getD_set_other (l : List ℕ) (a b x : ℕ) (hb : b < l.length) :
    (l.set a x).getD b 0 = if a = b then x else l.getD b 0 := by
  by_cases hab : a = b
  · subst hab
    rw [if_pos rfl, List.getD_eq_getElem?_getD, List.getElem?_set_self hb]
    rfl
  · rw [if_neg hab, List.getD_eq_getElem?_getD, List.getElem?_set_ne hab,
      List.getD_eq_getElem?_getD]

theorem count_swapList (c : ℕ) (l : List ℕ) (a b : ℕ)
    (ha : a < l.length) (hb : b < l.length) :
    (swapList l a b).count c = l.count c := by
  unfold swapList
  have hb1 : b < (l.set a (l.getD b 0)).length := by simpa using hb
  have e2 := count_set c (l.getD a 0) (l.set a (l.getD b 0)) b hb1
  have e1 := count_set c (l.getD b 0) l a ha
  have hm : (l.set a (l.getD b 0)).getD b 0 = l.getD b 0 := by
    rw [getD_set_other l a b _ hb]
    by_cases hab : a = b
    · subst hab; rw [if_pos rfl]
    · rw [if_neg hab]
  rw [hm] at e2
  omega

theorem swapList_perm (l : List ℕ) (a b : ℕ)
    (ha : a < l.length) (hb : b < l.length) :
    (swapList l a b).Perm l := by
  rw [List.perm_iff_count]
  intro c
  exact count_swapList c l a b ha hb

/-! ## Shuffle Generator (`random.shuffle` in `shuffle_image`)

CPython's `random.shuffle` runs a Fisher–Yates loop
`for i in reversed(range(1, len(x))): j = randbelow(i+1); swap x[i], x[j]`.
The random draws are supplied as a function `picks`; `randbelow (i+1)`
is modelled as `picks i % (i + 1)`, covering every possible draw. -/

/-- One pass of the Fisher–Yates loop, with the loop index counting down
from `i` to `1`. -/
def fyGo (picks : ℕ → ℕ) : ℕ → List ℕ → List ℕ
  | 0, l => l
  | i + 1, l => fyGo picks i (swapList l (i + 1) (picks (i + 1) % (i + 2)))

/-- Python `random.shuffle` applied to a list, parametrised by the random draws. -/
def randomShuffle (l : List ℕ) (picks : ℕ → ℕ) : List ℕ :=
  fyGo picks (l.length - 1) l

theorem fyGo_perm (picks : ℕ → ℕ) :
    ∀ (i : ℕ) (l : List ℕ), i < l.length → (fyGo picks i l).Perm l := by
  intro i
  induction i with
  | zero => intro l _; simp [fyGo]
  | succ i ih =>
    intro l h
    have hswap : (swapList l (i + 1) (picks (i + 1) % (i + 2))).Perm l := by
      apply swapList_perm l _ _ h
      have : picks (i + 1) % (i + 2) < i + 2 := Nat.mod_lt _ (by omega)
      omega
    have hlen : i < (swapList l (i + 1) (picks (i + 1) % (i + 2))).length := by
      rw [length_swapList]; omega
    exact (ih _ hlen).trans hswap

theorem randomShuffle_perm (l : List ℕ) (picks : ℕ → ℕ) :
    (randomShuffle l picks).Perm l := by
  unfold randomShuffle
  rcases l with _ | ⟨x, xs⟩
  · simp [fyGo]
  · exact fyGo_perm picks _ _ (by simp)

/-! ## Data model

`sessions.py` stores each session as a dictionary with the keys below;
`main.py` later adds puzzle data to it.  Image pixel data is embedded as
lists (matching `patches.tolist()`), timestamps as naturals. -/

/-- One per-player session dictionary (`game_sessions[sid]` in
`sessions.py`): original tile order, current (shuffled) order, raw tile
pixel data, level pointer, selected image and the quiz start time. -/
structure GameSession where
  original_positions : Option (List ℕ)
  shuffled_positions : Option (List ℕ)
  patches : Option (List (List (List ℕ)))
  current_level : Option String
  current_image_name : Option String
  start_time : Option ℕ
deriving DecidableEq

/-- The fresh session dictionary built by `get_or_create_session`. -/
def defaultSession : GameSession :=
  { original_positions := none
    shuffled_positions := none
    patches := none
    current_level := some ("level_1")
    current_image_name := none
    start_time := none }

/-- The two module-level dictionaries of `sessions.py`, as association
lists keyed by the session token. -/
structure SessionRegistry where
  game_sessions : List (String × GameSession)
  session_timeouts : List (String × ℕ)
deriving DecidableEq

def SESSION_TIMEOUT_MINUTES : ℕ := 60

/-- Python dictionary assignment `d[k] = v` (lookup-equivalent form). -/
def alistSet {β : Type} (l : List (String × β)) (k : String) (v : β) :
    List (String × β) :=
  (k, v) :: l.filter (fun e => !(e.1 == k))

/-- Error taxonomy of the request handlers.  `invalidSession` is the
"Invalid session" 400, `noPuzzle` the "No puzzle to swap/validate" 400,
`invalidIndices` the "Invalid indices" 400, `renderFailure` the 500 from
an exception while re-rendering, `internalFailure` any other 500. -/
inductive GameError where
  | invalidSession
  | noPuzzle
  | invalidIndices
  | renderFailure
  | internalFailure
deriving DecidableEq

/-! ## Session Registry (`sessions.py`) -/

/-- The allocation arm of `get_or_create_session`: a fresh token (the
`uuid.uuid4()` draw, supplied as `fresh_id`) mapped to a default session
with a fresh timeout. -/
def register_new_session (st : SessionRegistry) (now : ℕ) (fresh_id : String) :
    String × SessionRegistry :=
  (fresh_id,
    { game_sessions := alistSet st.game_sessions fresh_id defaultSession
      session_timeouts :=
        alistSet st.session_timeouts fresh_id (now + SESSION_TIMEOUT_MINUTES) })

/-- Function `get_or_create_session` (`sessions.py` lines 15-36): when the passed
token is truthy and is a key of `game_sessions`, only the timeout is
refreshed; otherwise a brand-new default session is allocated.  The
expiry timestamp is never consulted here. -/
def get_or_create_session (st : SessionRegistry) (session_id : Option String)
    (now : ℕ) (fresh_id : String) : String × SessionRegistry :=
  match session_id with
  | some sid =>
    if sid ≠ "" ∧ (st.game_sessions.lookup sid).isSome then
      (sid,
        { st with session_timeouts :=
            alistSet st.session_timeouts sid (now + SESSION_TIMEOUT_MINUTES) })
    else register_new_session st now fresh_id
  | none => register_new_session st now fresh_id

/-- The keys collected by the `expired` comprehension in
`cleanup_expired_sessions`. -/
def expired_ids (st : SessionRegistry) (now : ℕ) : List String :=
  (st.session_timeouts.filter (fun p => decide (p.2 < now))).map Prod.fst

/-- Function `cleanup_expired_sessions` (`sessions.py` lines 44-54): pop every
session whose timeout is strictly before `now` from both dictionaries. -/
def cleanup_expired_sessions (st : SessionRegistry) (now : ℕ) : SessionRegistry :=
  { game_sessions :=
      st.game_sessions.filter (fun p => !(decide (p.1 ∈ expired_ids st now)))
    session_timeouts :=
      st.session_timeouts.filter (fun p => !(decide (p.1 ∈ expired_ids st now))) }

/-- Function `clear_session`: unconditional removal from both dictionaries. -/
def clear_session (st : SessionRegistry) (session_id : String) : SessionRegistry :=
  { game_sessions := st.game_sessions.filter (fun p => !(p.1 == session_id))
    session_timeouts := st.session_timeouts.filter (fun p => !(p.1 == session_id)) }

/-! ## Tile Partitioner (`shuffle_image`, `main.py` lines 190-241)

`patch_size = 512 // grid_size`, `target_size = patch_size * grid_size`,
the source is resized to `(target_size, target_size)` and converted to
grayscale, then cut by
`reshape(h // p, p, -1, p).swapaxes(1, 2).reshape(-1, p, p)` into
row-major square blocks.  A grayscale image is a function from
`(row, col)` to intensity; only its values below `target_size` matter. -/

/-- Python `patch_size = 512 // grid_size` (line 192). -/
def patch_size_of (grid_size : ℕ) : ℕ := 512 / grid_size

/-- Python `target_size = patch_size * grid_size` (line 193). -/
def target_size_of (grid_size : ℕ) : ℕ := patch_size_of grid_size * grid_size

/-- Number of blocks produced by `reshape(-1, p, p)` on an `h × w` array:
`(h * w) / (p * p)`. -/
def num_patches (grid_size : ℕ) : ℕ :=
  target_size_of grid_size * target_size_of grid_size /
    (patch_size_of grid_size * patch_size_of grid_size)

/-- Tile `k` of the row-major block decomposition: the `p × p` block with
block-row `k / g` and block-column `k % g`, as a list of pixel rows
(`patches[k].tolist()`). -/
def patchMat (img : ℕ → ℕ → ℕ) (p g k : ℕ) : List (List ℕ) :=
  (List.range p).map (fun b => (List.range p).map (fun d =>
    img (k / g * p + b) (k % g * p + d)))

/-- The full tile list stored in `session["patches"]`. -/
def partition_image (img : ℕ → ℕ → ℕ) (grid_size : ℕ) : List (List (List ℕ)) :=
  (List.range (num_patches grid_size)).map
    (patchMat img (patch_size_of grid_size) grid_size)

/-- The composed image written by the re-rendering loops (lines 236-241
and 328-340): pixel `(x, y)` comes from the tile `positions[idx]` at the
row-major slot `idx = (x / p) * g + y / p`, offset `(x % p, y % p)`. -/
def recompose (patches : List (List (List ℕ))) (positions : List ℕ)
    (p g : ℕ) (x y : ℕ) : ℕ :=
  ((patches.getD (positions.getD (x / p * g + y / p) 0) []).getD (x % p) []).getD
    (y % p) 0

/-- The session mutation performed by a successful `/shuffle` (lines
227-233): store the tiles, set `original_positions = list(range(len(patches)))`,
copy it and shuffle the copy in place. -/
def shuffle_image_session (session : GameSession) (img : ℕ → ℕ → ℕ)
    (grid_size : ℕ) (picks : ℕ → ℕ) : GameSession :=
  let ps := partition_image img grid_size
  { session with
    patches := some ps
    original_positions := some (List.range ps.length)
    shuffled_positions := some (randomShuffle (List.range ps.length) picks) }

/-- What `/shuffle` does with the configured grid size (lines 190-225):
no range check at all.  `grid_size = 0` raises `ZeroDivisionError` and a
zero patch size makes the resize/reshape blow up (both caught as a 500);
any other value partitions into `num_patches` tiles. -/
def shuffle_grid_outcome (grid_size : ℕ) : Except GameError ℕ :=
  if grid_size = 0 ∨ patch_size_of grid_size = 0 then .error .internalFailure
  else .ok (num_patches grid_size)

/-! ## Swap Engine (`swap_patches`, `main.py` lines 280-372) -/

/-- The `patch.shape != (patch_size, patch_size)` test of line 334. -/
def patchShapeOk (patch : List (List ℕ)) (p : ℕ) : Bool :=
  patch.length == p && patch.all (fun row => row.length == p)

/-- The re-rendering loop of lines 328-340 succeeds iff every row-major
slot of the currently configured grid can fetch its tile
(`patches[shuffled_positions[index]]`, else `IndexError`) and that tile
has the currently configured patch shape (else `ValueError`). -/
def renderOk (patches : List (List (List ℕ))) (positions : List ℕ)
    (grid_size : ℕ) : Bool :=
  (List.range (grid_size * grid_size)).all (fun idx =>
    match positions[idx]? with
    | none => false
    | some k =>
      match patches[k]? with
      | none => false
      | some patch => patchShapeOk patch (patch_size_of grid_size))

/-- Function `swap_patches` (lines 289-372), given the session, the currently
configured grid size and the two form indices.  Returns the session
after the call together with the request outcome.  Note the in-place
swap of line 318 happens before the re-rendering, so a failed render
still leaves the positions swapped. -/
def swap_patches (session : GameSession) (grid_size : ℕ)
    (index1 index2 : ℤ) : GameSession × Except GameError Unit :=
  match session.shuffled_positions, session.patches with
  | some sp, some ps =>
    if index1 < 0 ∨ index2 < 0 ∨ index1 ≥ (sp.length : ℤ) ∨
        index2 ≥ (sp.length : ℤ) then
      (session, .error .invalidIndices)
    else
      let sp2 := swapList sp index1.toNat index2.toNat
      let session2 := { session with shuffled_positions := some sp2 }
      if renderOk ps sp2 grid_size then (session2, .ok ())
      else (session2, .error .renderFailure)
  | _, _ => (session, .error .noPuzzle)

/-! ## Validator (`validate_puzzle`, `main.py` lines 377-399) -/

/-- Function `validate_puzzle`: error when either positions list is missing, else
the boolean `shuffled_positions == original_positions`. -/
def validate_puzzle (session : GameSession) : Except GameError Bool :=
  match session.original_positions, session.shuffled_positions with
  | some op, some sp => .ok (sp == op)
  | _, _ => .error .noPuzzle

/-! ## Level advancement (`next_level`, `main.py` lines 488-514) -/

/-- Function `next_level`: `current_index = levels.index(cl) if cl in levels else -1`;
when `current_index < len(levels) - 1` the session moves to
`levels[current_index + 1]` and all puzzle state is cleared, otherwise
the session is untouched and the response carries `level: None`.  The
second component is the `level` field of the JSON response. -/
def next_level (session : GameSession) (levels : List String) :
    GameSession × Option String :=
  let current_index : ℤ :=
    match session.current_level with
    | some cl => if cl ∈ levels then (levels.indexOf cl : ℕ) else -1
    | none => -1
  if current_index < (levels.length : ℤ) - 1 then
    let new_level := levels.getD (current_index + 1).toNat ("")
    ({ session with
        current_level := some new_level
        current_image_name := none
        patches := none
        shuffled_positions := none
        original_positions := none
        start_time := none },
      some new_level)
  else (session, none)

/-! ## Configuration update (`update_config`, `main.py` lines 756-780) -/

/-- Outcome of the `grid_size` arm of `/admin/config`. -/
inductive ConfigResult where
  | rejected
  | updated (g : ℤ)
deriving DecidableEq

/-- The grid-size arm of `update_config` (lines 768-772): values outside
`[2, 10]` are rejected with a 400, in-range values are stored verbatim
by `set_grid_size`. -/
def update_config_grid (grid_size : ℤ) : ConfigResult :=
  if grid_size < 2 ∨ grid_size > 10 then .rejected else .updated grid_size

/-! ## Score persistence (`save_score` in `main.py` lines 534-586 and
`database.py` lines 72-109)

The float arithmetic `score * (weight / num_questions)` is modelled over
exact rationals; on the quiz score range the two agree.  Python `int()`
truncates toward zero. -/

/-- The `label_weights` table of `main.py` lines 559-564:
level ↦ (weight, num_questions). -/
def label_weights (level : String) : Option (ℕ × ℕ) :=
  if level = ("level_1") then some (10, 3)
  else if level = ("level_2") then some (20, 3)
  else if level = ("level_3") then some (30, 3)
  else if level = ("level_4") then some (40, 5)
  else none

/-- Python `int()` on a real number: truncation toward zero. -/
def pyInt (x : ℚ) : ℤ := if 0 ≤ x then ⌊x⌋ else ⌈x⌉

/-- Python `weighted_score = score * (weight / num_questions)` (lines 571-572). -/
def weighted_score (level : String) (score : ℕ) : Option ℚ :=
  (label_weights level).map (fun wq => (score : ℚ) * ((wq.1 : ℚ) / (wq.2 : ℚ)))

/-- Function `database.save_score`: the scores table holds `int(weighted_score)`
(line 85) and the player's total becomes `SUM(score)` over their rows
(lines 88-96).  The database is abstracted to this player's score rows. -/
def db_save_score (db : List ℤ) (ws : ℚ) : List ℤ × ℤ :=
  let stored := pyInt ws
  (db ++ [stored], (db ++ [stored]).sum)

/-- The `/save_score` pipeline for a known level: weight the raw score,
then persist it. -/
def save_score (db : List ℤ) (level : String) (score : ℕ) :
    Option (List ℤ × ℤ) :=
  (weighted_score level score).map (db_save_score db)

/-! ## Generic helper lemmas -/

theorem eq_range_iff_getD (cur : List ℕ) (n : ℕ) (hlen : cur.length = n) :
    cur = List.range n ↔ ∀ i, i < n → cur.getD i 0 = i := by
  constructor
  · rintro rfl i hi
    rw [List.getD_eq_getElem?_getD, List.getElem?_range hi]
    rfl
  · intro h
    apply List.ext_getElem (by simpa using hlen)
    intro i h1 h2
    have hi : i < n := by omega
    have hx := h i hi
    rw [List.getD_eq_getElem?_getD, List.getElem?_eq_getElem h1] at hx
    simpa [List.getElem_range] using hx

theorem lookup_filter_key {β : Type} (l : List (String × β)) (P : String → Bool)
    (k : String) :
    (l.filter (fun e => P e.1)).lookup k = if P k then l.lookup k else none := by
  induction l with
  | nil => simp
  | cons hd tl ih =>
    obtain ⟨a, b⟩ := hd
    by_cases hk : k = a
    · subst hk
      by_cases hP : P k
      · rw [List.filter_cons_of_pos (by simpa using hP)]
        simp [List.lookup_cons, hP]
      · rw [List.filter_cons_of_neg (by simpa using hP)]
        rw [ih, if_neg hP, if_neg hP]
    · have hbeq : (k == a) = false := by simpa using hk
      by_cases hP : P a
      · rw [List.filter_cons_of_pos (by simpa using hP)]
        rw [List.lookup_cons, List.lookup_cons, hbeq, ih]
      · rw [List.filter_cons_of_neg (by simpa using hP)]
        rw [ih, List.lookup_cons, hbeq]

theorem mem_of_lookup_eq_some {β : Type} {l : List (String × β)} {k : String}
    {v : β} (h : l.lookup k = some v) : (k, v) ∈ l := by
  induction l with
  | nil => simp at h
  | cons hd tl ih =>
    obtain ⟨a, b⟩ := hd
    rw [List.lookup_cons] at h
    by_cases hk : k = a
    · subst hk
      simp only [beq_self_eq_true] at h
      cases h
      exact List.mem_cons_self _ _
    · have hbeq : (k == a) = false := by simpa using hk
      rw [hbeq] at h
      exact List.mem_cons_of_mem _ (ih h)

theorem value_unique_of_nodup_keys {β : Type} :
    ∀ (l : List (String × β)), (l.map Prod.fst).Nodup →
      ∀ (a : String) (t t' : β), (a, t) ∈ l → (a, t') ∈ l → t = t' := by
  intro l
  induction l with
  | nil => simp
  | cons hd tl ih =>
    intro hnd a t t' h1 h2
    rw [List.map_cons, List.nodup_cons] at hnd
    rcases List.mem_cons.mp h1 with h1 | h1 <;> rcases List.mem_cons.mp h2 with h2 | h2
    · have h3 := h1.trans h2.symm
      injection h3
    · exfalso
      apply hnd.1
      have hfst : hd.1 = a := by rw [← h1]
      rw [hfst]
      exact List.mem_map.mpr ⟨(a, t'), h2, rfl⟩
    · exfalso
      apply hnd.1
      have hfst : hd.1 = a := by rw [← h2]
      rw [hfst]
      exact List.mem_map.mpr ⟨(a, t), h1, rfl⟩
    · exact ih hnd.2 a t t' h1 h2

/-! ## Claim theorems -/

/-- Claim C1: for a session whose live Arrangement was set up by the
shuffle (original order `0..n-1`, current permutation of the same
length), the Validator answers `ok true` exactly when every slot `i`
holds tile `i`, and `ok false` for every non-identity arrangement. -/
theorem claim1_validator_iff_identity (s : GameSession) (n : ℕ) (cur : List ℕ)
    (hor : s.original_positions = some (List.range n))
    (hsh : s.shuffled_positions = some cur)
    (hlen : cur.length = n) :
    (validate_puzzle s = .ok true ↔ ∀ i, i < n → cur.getD i 0 = i) ∧
    (validate_puzzle s = .ok false ↔ ¬ ∀ i, i < n → cur.getD i 0 = i) := by
  have hv : validate_puzzle s = .ok (cur == List.range n) := by
    unfold validate_puzzle
    rw [hor, hsh]
  have hiff := eq_range_iff_getD cur n hlen
  rw [hv]
  constructor
  · constructor
    · intro h
      have : (cur == List.range n) = true := by
        injection h
      exact hiff.mp (by simpa using this)
    · intro h
      have : cur = List.range n := hiff.mpr h
      simp [this]
  · constructor
    · intro h hid
      have : (cur == List.range n) = false := by
        injection h
      rw [hiff.mpr hid] at this
      simp at this
    · intro h
      have : cur ≠ List.range n := fun hc => h (hiff.mp hc)
      simp [this]

/-- Concrete instance of Claim C1: a solved 2×2 arrangement validates to
`true`. -/
theorem claim1_witness :
    validate_puzzle
      { original_positions := some (List.range 4)
        shuffled_positions := some [0, 1, 2, 3]
        patches := none
        current_level := some ("level_1")
        current_image_name := none
        start_time := none } = .ok true := by
  exact (claim1_validator_iff_identity _ 4 [0, 1, 2, 3] rfl rfl rfl).1.mpr
    (by decide)

/-- Claim C2: a `/shuffle` stores `original_positions = 0..N²-1` and a
current permutation of it of the same length (the Fisher–Yates result is
a bijection over the tile indices, for every possible sequence of random
draws), and an in-range `swapList` preserves being a permutation of
`0..n-1` together with the length. -/
theorem claim2_arrangement_permutation :
    (∀ (g : ℕ) (picks : ℕ → ℕ) (s : GameSession) (img : ℕ → ℕ → ℕ),
      ∃ cur : List ℕ,
        (shuffle_image_session s img g picks).original_positions =
          some (List.range (num_patches g)) ∧
        (shuffle_image_session s img g picks).shuffled_positions = some cur ∧
        cur.Perm (List.range (num_patches g)) ∧
        cur.length = num_patches g) ∧
    (∀ (cur : List ℕ) (n a b : ℕ), a < cur.length → b < cur.length →
      cur.Perm (List.range n) →
      (swapList cur a b).Perm (List.range n) ∧
      (swapList cur a b).length = cur.length) := by
  constructor
  · intro g picks s img
    refine ⟨randomShuffle (List.range (num_patches g)) picks, ?_, ?_, ?_, ?_⟩
    · simp [shuffle_image_session, partition_image]
    · simp [shuffle_image_session, partition_image]
    · exact randomShuffle_perm _ _
    · have := (randomShuffle_perm (List.range (num_patches g)) picks).length_eq
      simpa using this
  · intro cur n a b ha hb hp
    exact ⟨(swapList_perm cur a b ha hb).trans hp, length_swapList cur a b⟩

/-- Concrete instance of Claim C2: a swapped permutation of `0..3` is
still a permutation of `0..3`. -/
theorem claim2_witness :
    (swapList [3, 1, 2, 0] 0 1).Perm (List.range 4) :=
  (claim2_arrangement_permutation.2 [3, 1, 2, 0] 4 0 1 (by decide) (by decide)
    (by decide)).1

/-- Claim C3: for a session with a live Arrangement and two in-range
slot indices, running `swap_patches` twice in succession returns the
session to exactly its prior state (whatever the configured grid size,
and even if the re-render step errors: the in-place swap has already
happened). -/
theorem claim3_swap_twice_restores (s : GameSession) (g : ℕ) (i j : ℤ)
    (sp : List ℕ) (ps : List (List (List ℕ)))
    (hsp : s.shuffled_positions = some sp)
    (hps : s.patches = some ps)
    (hi0 : 0 ≤ i) (hj0 : 0 ≤ j)
    (hi : i < (sp.length : ℤ)) (hj : j < (sp.length : ℤ)) :
    (swap_patches (swap_patches s g i j).1 g i j).1 = s := by
  obtain ⟨o, sh, pa, cl, im, st⟩ := s
  simp only at hsp hps
  subst hsp
  subst hps
  have hina : i.toNat < sp.length := by omega
  have hinb : j.toNat < sp.length := by omega
  have hcond : ¬ (i < 0 ∨ j < 0 ∨ i ≥ (sp.length : ℤ) ∨ j ≥ (sp.length : ℤ)) := by
    omega
  have h1 : (swap_patches ⟨o, some sp, some ps, cl, im, st⟩ g i j).1 =
      ⟨o, some (swapList sp i.toNat j.toNat), some ps, cl, im, st⟩ := by
    simp only [swap_patches]
    rw [if_neg hcond]
    by_cases hr : renderOk ps (swapList sp i.toNat j.toNat) g = true <;>
      simp [hr]
  rw [h1]
  have hlen2 : (swapList sp i.toNat j.toNat).length = sp.length :=
    length_swapList sp i.toNat j.toNat
  have hcond2 : ¬ (i < 0 ∨ j < 0 ∨
      i ≥ ((swapList sp i.toNat j.toNat).length : ℤ) ∨
      j ≥ ((swapList sp i.toNat j.toNat).length : ℤ)) := by
    rw [hlen2]
    omega
  have hback : swapList (swapList sp i.toNat j.toNat) i.toNat j.toNat = sp :=
    swapList_swapList sp i.toNat j.toNat hina hinb
  simp only [swap_patches]
  rw [if_neg hcond2]
  simp only [hback]
  by_cases hr2 : renderOk ps sp g = true <;> simp [hr2]

/-- Concrete instance of Claim C3: swapping slots 0 and 1 twice on a
two-tile arrangement restores the session. -/
theorem claim3_witness :
    (swap_patches
      (swap_patches
        { original_positions := some [0, 1]
          shuffled_positions := some [1, 0]
          patches := some [[[5]], [[7]]]
          current_level := some ("level_1")
          current_image_name := none
          start_time := none } 2 0 1).1 2 0 1).1 =
      { original_positions := some [0, 1]
        shuffled_positions := some [1, 0]
        patches := some [[[5]], [[7]]]
        current_level := some ("level_1")
        current_image_name := none
        start_time := none } := by
  exact claim3_swap_twice_restores _ 2 0 1 [1, 0] [[[5]], [[7]]] rfl rfl
    (by decide) (by decide) (by decide) (by decide)

theorem lookup_alistSet_self {β : Type} (l : List (String × β)) (k : String)
    (v : β) : (alistSet l k v).lookup k = some v := by
  simp [alistSet]

/-- Claim C4 (amended): `get_or_create_session` never fails.  If the
supplied token is non-empty and is a key of the registry — whether or
not its expiry timestamp has passed — it returns the same token, leaves
every stored session untouched and refreshes that token's expiry;
otherwise (missing token, empty token, or token absent from the
registry) it allocates a fresh session under the fresh token, with
default level `level_1` and no arrangement. -/
theorem claim4_resolve_behavior (st : SessionRegistry) (now : ℕ) (fid : String) :
    (∀ sid : String, sid ≠ "" → (st.game_sessions.lookup sid).isSome = true →
      get_or_create_session st (some sid) now fid =
        (sid,
          { st with
            session_timeouts :=
              alistSet st.session_timeouts sid (now + SESSION_TIMEOUT_MINUTES) })) ∧
    (∀ sid? : Option String,
      (∀ sid, sid? = some sid → sid = "" ∨ st.game_sessions.lookup sid = none) →
      (get_or_create_session st sid? now fid).1 = fid ∧
      (get_or_create_session st sid? now fid).2.game_sessions.lookup fid =
        some defaultSession ∧
      (get_or_create_session st sid? now fid).2.session_timeouts.lookup fid =
        some (now + SESSION_TIMEOUT_MINUTES) ∧
      defaultSession.shuffled_positions = none ∧
      defaultSession.patches = none ∧
      defaultSession.current_level = some ("level_1")) := by
  constructor
  · intro sid hne hsome
    simp only [get_or_create_session]
    rw [if_pos ⟨hne, hsome⟩]
  · intro sid? habsent
    have hreg : ∀ st2, st2 = register_new_session st now fid →
        st2.1 = fid ∧
        st2.2.game_sessions.lookup fid = some defaultSession ∧
        st2.2.session_timeouts.lookup fid = some (now + SESSION_TIMEOUT_MINUTES) := by
      rintro st2 rfl
      refine ⟨rfl, ?_, ?_⟩
      · exact lookup_alistSet_self _ _ _
      · exact lookup_alistSet_self _ _ _
    match sid? with
    | none =>
      have h := hreg _ rfl
      exact ⟨h.1, h.2.1, h.2.2, rfl, rfl, rfl⟩
    | some sid =>
      have hcond : ¬ (sid ≠ "" ∧ (st.game_sessions.lookup sid).isSome = true) := by
        rcases habsent sid rfl with h | h
        · intro hc; exact hc.1 h
        · intro hc; rw [h] at hc; simp at hc
      simp only [get_or_create_session]
      rw [if_neg hcond]
      have h := hreg _ rfl
      exact ⟨h.1, h.2.1, h.2.2, rfl, rfl, rfl⟩

/-- Counterexample to Claim C4 as stated: a token whose expiry timestamp
(5) has already passed (now = 10) but which has not yet been swept is
*not* given a fresh session: `get_or_create_session` returns the very
same token, and the stored session keeps its arrangement. -/
theorem claim4_counterexample :
    (SessionRegistry.session_timeouts
      { game_sessions := [(("stale-token"),
          { original_positions := some [0]
            shuffled_positions := some [0]
            patches := some [[[9]]]
            current_level := some ("level_2")
            current_image_name := none
            start_time := none })]
        session_timeouts := [(("stale-token"), 5)] }).lookup ("stale-token") =
        some 5 ∧
    5 < 10 ∧
    (get_or_create_session
      { game_sessions := [(("stale-token"),
          { original_positions := some [0]
            shuffled_positions := some [0]
            patches := some [[[9]]]
            current_level := some ("level_2")
            current_image_name := none
            start_time := none })]
        session_timeouts := [(("stale-token"), 5)] }
      (some ("stale-token")) 10 ("fresh-token")).1 = ("stale-token") ∧
    ((get_or_create_session
      { game_sessions := [(("stale-token"),
          { original_positions := some [0]
            shuffled_positions := some [0]
            patches := some [[[9]]]
            current_level := some ("level_2")
            current_image_name := none
            start_time := none })]
        session_timeouts := [(("stale-token"), 5)] }
      (some ("stale-token")) 10 ("fresh-token")).2.game_sessions.lookup
        ("stale-token")).map GameSession.shuffled_positions = some (some [0]) := by
  refine ⟨rfl, by omega, rfl, rfl⟩

/-- Concrete instance of the amended Claim C4: presenting a live token
returns the same token with a refreshed timeout. -/
theorem claim4_witness :
    get_or_create_session
      { game_sessions := [(("tok"), defaultSession)]
        session_timeouts := [(("tok"), 3)] } (some ("tok")) 7 ("f") =
      (("tok"),
        { game_sessions := [(("tok"), defaultSession)]
          session_timeouts :=
            alistSet [(("tok"), 3)] ("tok") (7 + SESSION_TIMEOUT_MINUTES) }) := by
  exact (claim4_resolve_behavior _ 7 ("f")).1 ("tok") (by decide) (by decide)

/-- Claim C5 (amended): `next_level` on a session sitting at the last
level of the catalog returns the completed signal (`level: None` in the
response) and leaves the session completely unchanged: its
`current_level` field keeps the last level's name — a valid, in-range
level — rather than being set to null or an out-of-range index. -/
theorem claim5_last_level_completed (s : GameSession) (levels : List String)
    (cl : String) (h1 : s.current_level = some cl) (h2 : cl ∈ levels)
    (h3 : levels.indexOf cl = levels.length - 1) :
    next_level s levels = (s, none) := by
  have hlen : 1 ≤ levels.length := by
    cases levels with
    | nil => simp at h2
    | cons x xs => simp
  have hcond : ¬ ((if cl ∈ levels then ((levels.indexOf cl : ℕ) : ℤ) else -1) <
      (levels.length : ℤ) - 1) := by
    rw [if_pos h2, h3, Nat.cast_sub hlen]
    omega
  simp only [next_level, h1]
  rw [if_neg hcond]

/-- Counterexample to Claim C5 as stated: advancing from the last level
signals completed (`level: None` in the response) but the session's
current-level field is *not* null — it still holds `level_4`. -/
theorem claim5_counterexample :
    (next_level
      { original_positions := none
        shuffled_positions := none
        patches := none
        current_level := some ("level_4")
        current_image_name := none
        start_time := none }
      [("level_1"), ("level_2"), ("level_3"), ("level_4")]).2 = none ∧
    (next_level
      { original_positions := none
        shuffled_positions := none
        patches := none
        current_level := some ("level_4")
        current_image_name := none
        start_time := none }
      [("level_1"), ("level_2"), ("level_3"), ("level_4")]).1.current_level =
      some ("level_4") := by
  exact ⟨rfl, rfl⟩

/-- Concrete instance of the amended Claim C5. -/
theorem claim5_witness :
    next_level
      { original_positions := none
        shuffled_positions := none
        patches := none
        current_level := some ("level_2")
        current_image_name := none
        start_time := none }
      [("level_1"), ("level_2")] =
      ({ original_positions := none
         shuffled_positions := none
         patches := none
         current_level := some ("level_2")
         current_image_name := none
         start_time := none }, none) := by
  exact claim5_last_level_completed _ _ ("level_2") rfl (by decide) (by decide)

/-- Claim C9: after `cleanup_expired_sessions` runs at time `now`, every
session whose timeout is strictly in the past is gone from both
registry dictionaries, and every session whose timeout has not passed is
untouched (assuming, as the code maintains, that each token appears at
most once in the timeout table). -/
theorem claim9_sweep_exact (st : SessionRegistry) (now : ℕ) (sid : String)
    (t : ℕ) (hnd : (st.session_timeouts.map Prod.fst).Nodup)
    (ht : st.session_timeouts.lookup sid = some t) :
    (t < now →
      (cleanup_expired_sessions st now).game_sessions.lookup sid = none ∧
      (cleanup_expired_sessions st now).session_timeouts.lookup sid = none) ∧
    (¬ t < now →
      (cleanup_expired_sessions st now).game_sessions.lookup sid =
        st.game_sessions.lookup sid ∧
      (cleanup_expired_sessions st now).session_timeouts.lookup sid = some t) := by
  have hmem : (sid, t) ∈ st.session_timeouts := mem_of_lookup_eq_some ht
  have hexp : sid ∈ expired_ids st now ↔
      ∃ t', (sid, t') ∈ st.session_timeouts ∧ t' < now := by
    unfold expired_ids
    constructor
    · intro h
      rcases List.mem_map.mp h with ⟨p, hp, hfst⟩
      rcases List.mem_filter.mp hp with ⟨hpl, hplt⟩
      refine ⟨p.2, ?_, by simpa using hplt⟩
      rw [← hfst]
      simpa using hpl
    · rintro ⟨t', hmem', hlt⟩
      exact List.mem_map.mpr ⟨(sid, t'),
        List.mem_filter.mpr ⟨hmem', by simpa using hlt⟩, rfl⟩
  have hlookup1 : (cleanup_expired_sessions st now).game_sessions.lookup sid =
      if !(decide (sid ∈ expired_ids st now)) then st.game_sessions.lookup sid
      else none := by
    exact lookup_filter_key st.game_sessions
      (fun k => !(decide (k ∈ expired_ids st now))) sid
  have hlookup2 : (cleanup_expired_sessions st now).session_timeouts.lookup sid =
      if !(decide (sid ∈ expired_ids st now)) then st.session_timeouts.lookup sid
      else none := by
    exact lookup_filter_key st.session_timeouts
      (fun k => !(decide (k ∈ expired_ids st now))) sid
  constructor
  · intro hlt
    have hin : sid ∈ expired_ids st now := hexp.mpr ⟨t, hmem, hlt⟩
    rw [hlookup1, hlookup2]
    simp [hin]
  · intro hge
    have hout : sid ∉ expired_ids st now := by
      intro hin
      rcases hexp.mp hin with ⟨t', hmem', hlt'⟩
      have : t = t' := value_unique_of_nodup_keys _ hnd sid t t' hmem hmem'
      omega
    rw [hlookup1, hlookup2]
    simp [hout, ht]

/-- Concrete instance of Claim C9: with one expired and one live entry,
the sweep removes exactly the expired session. -/
theorem claim9_witness :
    (cleanup_expired_sessions
      { game_sessions := [(("old"), defaultSession), (("new"), defaultSession)]
        session_timeouts := [(("old"), 5), (("new"), 50)] }
      10).game_sessions.lookup ("old") = none ∧
    (cleanup_expired_sessions
      { game_sessions := [(("old"), defaultSession), (("new"), defaultSession)]
        session_timeouts := [(("old"), 5), (("new"), 50)] }
      10).game_sessions.lookup ("new") = some defaultSession := by
  constructor
  · exact ((claim9_sweep_exact _ 10 ("old") 5 (by decide) (by decide)).1
      (by omega)).1
  · have h := ((claim9_sweep_exact
      { game_sessions := [(("old"), defaultSession), (("new"), defaultSession)]
        session_timeouts := [(("old"), 5), (("new"), 50)] }
      10 ("new") 50 (by decide) (by decide)).2 (by omega)).1
    rw [h]
    rfl

/-- Claim C10: saving a score for a known level persists
`int(score * (weight / num_questions))` — the truncation (here: floor,
as the value is non-negative) of the exact weighted score — and the
player's cumulative total grows by exactly that truncated integer. -/
theorem claim10_truncated_weighted_score (db : List ℤ) (level : String)
    (score w q : ℕ) (hw : label_weights level = some (w, q)) :
    save_score db level score =
      some (db ++ [⌊((score * w : ℕ) : ℚ) / (q : ℚ)⌋],
        db.sum + ⌊((score * w : ℕ) : ℚ) / (q : ℚ)⌋) := by
  have harg : (score : ℚ) * ((w : ℚ) / (q : ℚ)) =
      ((score * w : ℕ) : ℚ) / (q : ℚ) := by
    push_cast
    ring
  have hnn : (0 : ℚ) ≤ ((score * w : ℕ) : ℚ) / (q : ℚ) := by positivity
  have hpy : pyInt (((score * w : ℕ) : ℚ) / (q : ℚ)) =
      ⌊((score * w : ℕ) : ℚ) / (q : ℚ)⌋ := by
    rw [pyInt, if_pos hnn]
  simp only [save_score, weighted_score, hw, Option.map_some', harg,
    db_save_score, hpy]
  rw [List.sum_append]
  simp

/-- Concrete instance of Claim C10: level_1 (weight 10, 3 questions)
with raw score 1 gives the weighted score 10/3 ≈ 3.33, stored as 3 —
the fractional part is lost before entering the total. -/
theorem claim10_witness :
    save_score [] ("level_1") 1 = some ([3], 3) ∧
    (3 : ℚ) < (1 : ℚ) * ((10 : ℚ) / (3 : ℚ)) := by
  have hfloor : ⌊((1 * 10 : ℕ) : ℚ) / ((3 : ℕ) : ℚ)⌋ = 3 := by
    rw [Int.floor_eq_iff]
    norm_num
  constructor
  · have h := claim10_truncated_weighted_score [] ("level_1") 1 10 3 (by rfl)
    rw [h, hfloor]
    rfl
  · norm_num

/-- Claim C7 (amended): grid-size validation happens at configuration
update time, not in the Tile Partitioner.  `update_config` rejects every
N outside [2,10] with a bad-request error and stores in-range values
verbatim (never clamped); the partitioner itself performs no range
check — it happily partitions with whatever grid size the configuration
supplies (e.g. N = 11 yields 121 tiles and no error). -/
theorem claim7_grid_validation :
    (∀ g : ℤ, update_config_grid g = ConfigResult.rejected ↔ (g < 2 ∨ g > 10)) ∧
    (∀ g : ℤ, 2 ≤ g → g ≤ 10 → update_config_grid g = ConfigResult.updated g) ∧
    shuffle_grid_outcome 11 = .ok 121 := by
  refine ⟨?_, ?_, ?_⟩
  · intro g
    by_cases h : g < 2 ∨ g > 10 <;> simp [update_config_grid, h]
  · intro g h2 h10
    rw [update_config_grid, if_neg (by omega)]
  · rfl

/-- Counterexample to Claim C7 as stated: N = 11 lies outside [2,10],
yet the Tile Partitioner raises no `InvalidGridSizeError` — it
partitions into 121 tiles. -/
theorem claim7_counterexample :
    shuffle_grid_outcome 11 = .ok 121 ∧ ¬ (2 ≤ (11 : ℕ) ∧ (11 : ℕ) ≤ 10) := by
  exact ⟨rfl, by omega⟩

/-- Concrete instance of the amended Claim C7: an in-range value is
stored verbatim. -/
theorem claim7_witness : update_config_grid 5 = ConfigResult.updated 5 := by
  exact claim7_grid_validation.2.1 5 (by omega) (by omega)

theorem getD_map_range {β : Type} (f : ℕ → β) (n i : ℕ) (d : β) (h : i < n) :
    ((List.range n).map f).getD i d = f i := by
  rw [List.getD_eq_getElem?_getD, List.getElem?_map, List.getElem?_range h]
  rfl

theorem getD_range (n i : ℕ) (h : i < n) : (List.range n).getD i 0 = i := by
  rw [List.getD_eq_getElem?_getD, List.getElem?_range h]
  rfl

theorem num_patches_eq (g : ℕ) (hp : 0 < patch_size_of g) :
    num_patches g = g * g := by
  unfold num_patches target_size_of
  have hmul : patch_size_of g * g * (patch_size_of g * g) =
      patch_size_of g * patch_size_of g * (g * g) := by ring
  rw [hmul, Nat.mul_div_cancel_left _ (by positivity)]

theorem patch_size_pos (g : ℕ) (hg : 0 < g) (hle : g ≤ 512) :
    0 < patch_size_of g :=
  Nat.div_pos hle hg

theorem recompose_partition (img : ℕ → ℕ → ℕ) (g : ℕ) (hg : 0 < g)
    (hp : 0 < patch_size_of g) (x y : ℕ)
    (hx : x < target_size_of g) (hy : y < target_size_of g) :
    recompose (partition_image img g) (List.range (g * g))
      (patch_size_of g) g x y = img x y := by
  have hxg : x / patch_size_of g < g := by
    rw [Nat.div_lt_iff_lt_mul hp]
    calc x < target_size_of g := hx
    _ = g * patch_size_of g := Nat.mul_comm _ _
  have hyg : y / patch_size_of g < g := by
    rw [Nat.div_lt_iff_lt_mul hp]
    calc y < target_size_of g := hy
    _ = g * patch_size_of g := Nat.mul_comm _ _
  have hidx : x / patch_size_of g * g + y / patch_size_of g < g * g := by
    calc x / patch_size_of g * g + y / patch_size_of g
        < x / patch_size_of g * g + g := by omega
    _ = (x / patch_size_of g + 1) * g := by ring
    _ ≤ g * g := Nat.mul_le_mul_right g (by omega)
  unfold recompose partition_image
  rw [num_patches_eq g hp]
  rw [getD_range _ _ hidx, getD_map_range _ _ _ _ hidx]
  unfold patchMat
  have hxp : x % patch_size_of g < patch_size_of g := Nat.mod_lt _ hp
  have hyp2 : y % patch_size_of g < patch_size_of g := Nat.mod_lt _ hp
  rw [getD_map_range _ _ _ _ hxp, getD_map_range _ _ _ _ hyp2]
  have hdiv : (x / patch_size_of g * g + y / patch_size_of g) / g =
      x / patch_size_of g := by
    have harr : x / patch_size_of g * g + y / patch_size_of g =
        g * (x / patch_size_of g) + y / patch_size_of g := by ring
    rw [harr, Nat.mul_add_div hg, Nat.div_eq_of_lt hyg, Nat.add_zero]
  have hmod : (x / patch_size_of g * g + y / patch_size_of g) % g =
      y / patch_size_of g := by
    have harr : x / patch_size_of g * g + y / patch_size_of g =
        y / patch_size_of g + x / patch_size_of g * g := by ring
    rw [harr, Nat.add_mul_mod_self_right, Nat.mod_eq_of_lt hyg]
  rw [hdiv, hmod]
  have hxx : x / patch_size_of g * patch_size_of g + x % patch_size_of g = x := by
    rw [Nat.mul_comm]
    exact Nat.div_add_mod x (patch_size_of g)
  have hyy : y / patch_size_of g * patch_size_of g + y % patch_size_of g = y := by
    rw [Nat.mul_comm]
    exact Nat.div_add_mod y (patch_size_of g)
  rw [hxx, hyy]

/-- Claim C6 (amended): for every source image and every grid dimension
N in [2,10], the partitioner (after the code's resize of the source to
`target_size = (512 // N) * N` on both axes) produces exactly N² square
tiles, each of edge `512 // N` — a constant of the configuration,
independent of the source image's own edge — and the row-major
recomposition of the tiles reproduces the resized source exactly. -/
theorem claim6_partition_roundtrip (img : ℕ → ℕ → ℕ) (g : ℕ)
    (h2 : 2 ≤ g) (h10 : g ≤ 10) :
    (partition_image img g).length = g * g ∧
    (∀ patch ∈ partition_image img g,
      patch.length = patch_size_of g ∧
      ∀ row ∈ patch, row.length = patch_size_of g) ∧
    (∀ x y, x < target_size_of g → y < target_size_of g →
      recompose (partition_image img g) (List.range (g * g))
        (patch_size_of g) g x y = img x y) := by
  have hg : 0 < g := by omega
  have hp : 0 < patch_size_of g := patch_size_pos g hg (by omega)
  refine ⟨?_, ?_, ?_⟩
  · rw [partition_image, List.length_map, List.length_range,
      num_patches_eq g hp]
  · intro patch hmem
    rcases List.mem_map.mp hmem with ⟨k, hk, rfl⟩
    constructor
    · simp [patchMat]
    · intro row hrow
      rcases List.mem_map.mp hrow with ⟨b, hb, rfl⟩
      simp
  · intro x y hx hy
    exact recompose_partition img g hg hp x y hx hy

/-- Counterexample to Claim C6 as stated: the claim makes each tile's
edge `floor(sourceEdge / N)`.  For a source image of edge 256 and N = 2
that would be 128, but the code's tile edge is `512 // N = 256`
whatever the source image is: the source is first resized to
`(512 // N) * N` regardless of its own size. -/
theorem claim6_counterexample :
    (∀ patch ∈ partition_image (fun _ _ => 0) 2, patch.length = 256) ∧
    patch_size_of 2 = 256 ∧ (256 : ℕ) / 2 = 128 ∧ (256 : ℕ) ≠ 128 := by
  refine ⟨?_, rfl, rfl, by omega⟩
  intro patch hmem
  rcases List.mem_map.mp hmem with ⟨k, hk, rfl⟩
  simp only [patchMat, List.length_map, List.length_range]
  rfl

/-- Concrete instance of the amended Claim C6: with N equal 4 the
partitioner makes 16 tiles of edge 128 and the round trip holds at a
sample pixel. -/
theorem claim6_witness :
    (partition_image (fun x y => x + y) 4).length = 16 ∧
    recompose (partition_image (fun x y => x + y) 4) (List.range 16) 128 4
      200 300 = 500 := by
  have h := claim6_partition_roundtrip (fun x y => x + y) 4 (by omega)
    (by omega)
  constructor
  · exact h.1
  · exact h.2.2 200 300 (by decide) (by decide)

/-! ## Claim C8: swap precondition errors -/

/-- The state in which `/shuffle` under grid size `g` leaves a session's
arrangement (and which `main.py` preserves between requests as long as
the configured grid size does not change): `N² = g²` positions bounded
by `g²`, `g²` tiles, every tile of shape `(512//g, 512//g)`.  A session
without a live arrangement is unconstrained. -/
def wf_swap_session (s : GameSession) (g : ℕ) : Bool :=
  match s.shuffled_positions, s.patches with
  | some sp, some ps =>
    (sp.length == g * g) && (ps.length == g * g) &&
    sp.all (fun k => decide (k < g * g)) &&
    ps.all (fun patch => patchShapeOk patch (patch_size_of g))
  | _, _ => true

theorem renderOk_of_bounds (ps : List (List (List ℕ))) (sp2 : List ℕ) (g : ℕ)
    (hlen : sp2.length = g * g) (hmem : ∀ k ∈ sp2, k < g * g)
    (hps : ps.length = g * g)
    (hshape : ∀ patch ∈ ps, patchShapeOk patch (patch_size_of g) = true) :
    renderOk ps sp2 g = true := by
  unfold renderOk
  rw [List.all_eq_true]
  intro idx hidxmem
  have hidx : idx < g * g := List.mem_range.mp hidxmem
  have hlt : idx < sp2.length := by omega
  rw [List.getElem?_eq_getElem hlt]
  have hkmem : sp2[idx] ∈ sp2 := List.getElem_mem hlt
  have hklt : sp2[idx] < ps.length := by
    have := hmem _ hkmem
    omega
  show (match ps[sp2[idx]]? with
    | none => false
    | some patch => patchShapeOk patch (patch_size_of g)) = true
  rw [List.getElem?_eq_getElem hklt]
  exact hshape _ (List.getElem_mem hklt)

/-- Claim C8 (amended): assuming the arrangement is in the state a
shuffle under the *currently configured* grid size `g` leaves it in
(`wf_swap_session`), `swap_patches` fails with the no-active-puzzle
error exactly when the session has no live arrangement, fails with the
invalid-indices error exactly when an index falls outside `[0, N²)`,
and succeeds when both indices are in range — including `a = b`, a
legal no-op that returns the session unchanged.  (Without the
grid-consistency assumption the success arm is false: see the
counterexample, where an in-range swap fails because the configured
grid size changed after the shuffle.) -/
theorem claim8_swap_preconditions (s : GameSession) (g : ℕ) (i j : ℤ)
    (hwf : wf_swap_session s g = true) :
    ((s.shuffled_positions = none ∨ s.patches = none) →
      swap_patches s g i j = (s, .error .noPuzzle)) ∧
    (∀ sp ps, s.shuffled_positions = some sp → s.patches = some ps →
      ((i < 0 ∨ j < 0 ∨ i ≥ (sp.length : ℤ) ∨ j ≥ (sp.length : ℤ)) →
        swap_patches s g i j = (s, .error .invalidIndices)) ∧
      (0 ≤ i → 0 ≤ j → i < (sp.length : ℤ) → j < (sp.length : ℤ) →
        (swap_patches s g i j).2 = .ok () ∧
        (i = j → swap_patches s g i j = (s, .ok ())))) := by
  obtain ⟨o, sh, pa, cl, im, st⟩ := s
  constructor
  · intro hnone
    rcases hnone with hnone | hnone <;> simp only at hnone <;> subst hnone
    · cases pa <;> simp [swap_patches]
    · cases sh <;> simp [swap_patches]
  · intro sp ps hsp hps
    simp only at hsp hps
    subst hsp
    subst hps
    simp only [wf_swap_session, Bool.and_eq_true, beq_iff_eq,
      List.all_eq_true, decide_eq_true_eq] at hwf
    obtain ⟨⟨⟨hsplen, hpslen⟩, hbound⟩, hshape⟩ := hwf
    constructor
    · intro hout
      simp only [swap_patches]
      rw [if_pos hout]
    · intro hi0 hj0 hi hj
      have hina : i.toNat < sp.length := by omega
      have hinb : j.toNat < sp.length := by omega
      have hcond : ¬ (i < 0 ∨ j < 0 ∨ i ≥ (sp.length : ℤ) ∨
          j ≥ (sp.length : ℤ)) := by omega
      have hperm := swapList_perm sp i.toNat j.toNat hina hinb
      have hrender : renderOk ps (swapList sp i.toNat j.toNat) g = true := by
        apply renderOk_of_bounds ps _ g _ _ hpslen hshape
        · rw [length_swapList]
          exact hsplen
        · intro k hk
          exact hbound k (hperm.mem_iff.mp hk)
      constructor
      · simp only [swap_patches]
        rw [if_neg hcond]
        simp [hrender]
      · rintro rfl
        have hself : swapList sp i.toNat i.toNat = sp :=
          swapList_self sp i.toNat hina
        rw [hself] at hrender
        simp only [swap_patches]
        rw [if_neg hcond]
        simp [hself, hrender]

set_option maxRecDepth 100000 in
/-- Counterexample to Claim C8 as stated: a session shuffled under grid
size 2 (4 tiles of edge 256) on which `/swap` is called after the admin
changed the configured grid size to 4.  Both indices are in range
(`0 ≤ 0, 1 < 4 = N²` of the live arrangement), yet the call fails — the
re-render rejects the 256-edge tiles because it now expects edge 128 —
so in-range swaps do not always succeed. -/
theorem claim8_counterexample :
    (swap_patches
      { original_positions := some [0, 1, 2, 3]
        shuffled_positions := some [0, 1, 2, 3]
        patches := some (List.replicate 4 (List.replicate 256 (List.replicate 256 0)))
        current_level := some ("level_1")
        current_image_name := none
        start_time := none } 4 0 1).2 = .error .renderFailure ∧
    (swap_patches
      { original_positions := some [0, 1, 2, 3]
        shuffled_positions := some [0, 1, 2, 3]
        patches := some (List.replicate 4 (List.replicate 256 (List.replicate 256 0)))
        current_level := some ("level_1")
        current_image_name := none
        start_time := none } 4 0 1).2 ≠ .error .invalidIndices ∧
    (swap_patches
      { original_positions := some [0, 1, 2, 3]
        shuffled_positions := some [0, 1, 2, 3]
        patches := some (List.replicate 4 (List.replicate 256 (List.replicate 256 0)))
        current_level := some ("level_1")
        current_image_name := none
        start_time := none } 4 0 1).2 ≠ .error .noPuzzle := by
  have hmain : (swap_patches
      { original_positions := some [0, 1, 2, 3]
        shuffled_positions := some [0, 1, 2, 3]
        patches := some (List.replicate 4 (List.replicate 256 (List.replicate 256 0)))
        current_level := some ("level_1")
        current_image_name := none
        start_time := none } 4 0 1).2 = .error .renderFailure := by rfl
  refine ⟨hmain, ?_, ?_⟩
  · rw [hmain]
    simp
  · rw [hmain]
    simp

set_option maxRecDepth 100000 in
/-- Concrete instance of the amended Claim C8: under a matching grid
size, the no-op swap `a = b = 0` succeeds and leaves the session
unchanged. -/
theorem claim8_witness :
    wf_swap_session
      { original_positions := some [0, 1, 2, 3]
        shuffled_positions := some [0, 1, 2, 3]
        patches := some (List.replicate 4 (List.replicate 256 (List.replicate 256 0)))
        current_level := some ("level_1")
        current_image_name := none
        start_time := none } 2 = true ∧
    swap_patches
      { original_positions := some [0, 1, 2, 3]
        shuffled_positions := some [0, 1, 2, 3]
        patches := some (List.replicate 4 (List.replicate 256 (List.replicate 256 0)))
        current_level := some ("level_1")
        current_image_name := none
        start_time := none } 2 0 0 =
      ({ original_positions := some [0, 1, 2, 3]
         shuffled_positions := some [0, 1, 2, 3]
         patches := some (List.replicate 4 (List.replicate 256 (List.replicate 256 0)))
         current_level := some ("level_1")
         current_image_name := none
         start_time := none }, .ok ()) := by
  have hwf : wf_swap_session
      { original_positions := some [0, 1, 2, 3]
        shuffled_positions := some [0, 1, 2, 3]
        patches := some (List.replicate 4 (List.replicate 256 (List.replicate 256 0)))
        current_level := some ("level_1")
        current_image_name := none
        start_time := none } 2 = true := by
    simp [wf_swap_session, patchShapeOk, List.all_eq_true, List.mem_replicate]
    rfl
  refine ⟨hwf, ?_⟩
  exact (((claim8_swap_preconditions _ 2 0 0 hwf).2 [0, 1, 2, 3] _ rfl rfl).2
    (by omega) (by omega) (by decide) (by decide)).2 rfl

end Puzzle
